import Mathlib

/-!
Verification development for the Oracle schema driver: a shallow embedding of
the type-normalization layer (`FormatType` / `ParseType` in `sql/oracle/convert.go`),
the catalog inspector (`inspect.go`: index/check assembly, schema/table resolution,
default-expression classification) and the connection gate (`Open` in
`sql/oracle/driver.go`), together with theorems settling the specification
claims about them.

Go machine integers (`int`, `int64`) are modelled as `Int` (overflow never
occurs on the inspected ranges, and `strconv.ParseInt`'s 64-bit range check is
modelled explicitly).  Fallible Go functions returning `(T, error)` are
modelled as `Except E T` with a structured error type whose constructors stand
for the distinct `fmt.Errorf` cases of the source.  Strings are treated at the
character level; all inputs exercised by the source are ASCII, where Go's
byte-level indexing coincides with character indexing.
-/

/-! ## String utilities mirroring the Go standard library -/

/-- `strings.FieldsFunc` separator used by `parseColumn`:
splits on `(`, `)`, space and comma. -/
def oracleSep (c : Char) : Bool := c = '(' || c = ')' || c = ' ' || c = ','

/-- Accumulator-based splitter: `cur` holds the (reversed) characters of the
field currently being read. Empty fields are dropped, as in `strings.FieldsFunc`. -/
def fieldsAux (cur : List Char) : List Char → List String
  | [] => if cur.isEmpty then [] else [String.mk cur.reverse]
  | c :: cs =>
    if oracleSep c then
      if cur.isEmpty then fieldsAux [] cs
      else String.mk cur.reverse :: fieldsAux [] cs
    else fieldsAux (c :: cur) cs

/-- `strings.FieldsFunc(s, r == '(' || r == ')' || r == ' ' || r == ',')`. -/
def fieldsFunc (s : String) : List String := fieldsAux [] s.toList

/-- `strings.ToLower` (ASCII part, which is all the source exercises). -/
def toLowerStr (s : String) : String := String.mk (s.toList.map Char.toLower)

/-- `strings.HasPrefix`. -/
def hasPrefixStr (pat s : String) : Bool := pat.toList.isPrefixOf s.toList

/-- `strings.Join(parts, " ")`. -/
def joinSpace : List String → String
  | [] => ""
  | [s] => s
  | s :: rest => s ++ " " ++ joinSpace rest

/-- Decidable equality of `Except` results (component-wise). -/
instance instDecEqExcept {ε α : Type} [DecidableEq ε] [DecidableEq α] :
    DecidableEq (Except ε α) := fun a b =>
  match a, b with
  | .ok x, .ok y => if h : x = y then .isTrue (by rw [h]) else .isFalse (by simpa using h)
  | .error x, .error y => if h : x = y then .isTrue (by rw [h]) else .isFalse (by simpa using h)
  | .ok _, .error _ => .isFalse (by simp)
  | .error _, .ok _ => .isFalse (by simp)

/-- Digit-run accumulator for `strconv.ParseInt` (base 10). -/
def digitsValAux (acc : Nat) : List Char → Option Nat
  | [] => some acc
  | c :: cs => if c.isDigit then digitsValAux (acc * 10 + (c.toNat - 48)) cs else none

/-- `strconv.ParseInt(s, 10, 64)`: optional sign, non-empty digit run,
64-bit range check; `none` models the error return. -/
def goParseInt64 (s : String) : Option Int :=
  match s.toList with
  | [] => none
  | '+' :: rest =>
    if rest.isEmpty then none
    else match digitsValAux 0 rest with
      | some n => if n ≤ 9223372036854775807 then some (Int.ofNat n) else none
      | none => none
  | '-' :: rest =>
    if rest.isEmpty then none
    else match digitsValAux 0 rest with
      | some n => if n ≤ 9223372036854775808 then some (-(Int.ofNat n)) else none
      | none => none
  | l =>
    match digitsValAux 0 l with
    | some n => if n ≤ 9223372036854775807 then some (Int.ofNat n) else none
    | none => none

/-- First character index at which `pat` occurs in `l`, as `strings.Index`
(character level; coincides with byte level on ASCII). -/
def findSubAux (pat : List Char) : List Char → Nat → Option Nat
  | [], i => if pat.isEmpty then some i else none
  | c :: cs, i => if pat.isPrefixOf (c :: cs) then some i else findSubAux pat cs (i + 1)

/-- `strings.Index(s, pat)` returning `none` for `-1`. -/
def findSub (s pat : String) : Option Nat := findSubAux pat.toList s.toList 0

/-- Go slice `s[a:b]` at character level. -/
def strSlice (s : String) (a b : Nat) : String := String.mk ((s.toList.take b).drop a)

/-- Go slice `s[:b]` at character level. -/
def strTake (s : String) (b : Nat) : String := String.mk (s.toList.take b)

/-! ## Type constants (`sql/oracle/driver.go`) -/

def TypeVarchar : String := "varchar2"
def TypeNVarchar : String := "nvarchar2"
def TypeChar : String := "char"
def TypeNChar : String := "nchar"
def TypeRowID : String := "rowid"
def TypeRaw : String := "raw"
def TypeFloat : String := "float"
def TypeDouble : String := "double"
def TypeInt : String := "int"
def TypeNumber : String := "number"
def TypeDate : String := "date"
def TypeTimestamp : String := "timestamp"
def TypeTimestampTZ : String := "timestamp with time zone"
def TypeTimestampLTZ : String := "timestamp with local time zone"
def TypeIntervalDS : String := "interval day second"
def TypeIntervalYM : String := "interval year month"
def TypeCLOB : String := "clob"
def TypeBLOB : String := "blob"
def TypeBFile : String := "bfile"
def TypeLongVarchar : String := "long"
def TypeLongRaw : String := "long raw"
def TypeJSON : String := "json"

/-! ## The canonical type variants (`schema.Type` values used by the driver)

Closed union of the `schema.Type` implementations the Oracle driver constructs
or dispatches on: the canonical variants built by `columnType`, plus the
driver-local types (`ArrayType`, `NetworkType`, `UUIDType`, `XMLType`,
`UserDefinedType`) and `schema.BoolType` / `schema.SpatialType`, which
`canConvert` dispatches on and which fall to `FormatType`'s default error case.
Each constructor carries exactly the facets the source reads or writes. -/

inductive SType where
  | integer (t : String)
  | binary (t : String) (size : Int)
  | string (t : String) (size : Int)
  | time (t : String)
  | float (t : String) (precision : Int)
  | decimal (t : String) (precision scale : Int)
  | json (t : String)
  | boolT (t : String)
  | array (t : String)
  | network (t : String)
  | spatial (t : String)
  | uuid (t : String)
  | xml (t : String)
  | unsupported (t : String)
  | userDefined (t : String)
deriving Repr, DecidableEq

/-- The `%T` tag printed by `FormatType`'s default error case. -/
def SType.goTag : SType → String
  | .integer _ => "*schema.IntegerType"
  | .binary _ _ => "*schema.BinaryType"
  | .string _ _ => "*schema.StringType"
  | .time _ => "*schema.TimeType"
  | .float _ _ => "*schema.FloatType"
  | .decimal _ _ _ => "*schema.DecimalType"
  | .json _ => "*schema.JSONType"
  | .boolT _ => "*schema.BoolType"
  | .array _ => "*oracle.ArrayType"
  | .network _ => "*oracle.NetworkType"
  | .spatial _ => "*schema.SpatialType"
  | .uuid _ => "*oracle.UUIDType"
  | .xml _ => "*oracle.XMLType"
  | .unsupported _ => "*schema.UnsupportedType"
  | .userDefined _ => "*oracle.UserDefinedType"

/-- Facet extractor: the precision carried by a canonical variant, when the
variant has a precision facet at all. -/
def typePrecision : SType → Option Int
  | .float _ p => some p
  | .decimal _ p _ => some p
  | _ => none

/-- A variant is supported when it is neither `UnsupportedType` nor the
`UserDefinedType` fallback. -/
def isSupported : SType → Bool
  | .unsupported _ => false
  | .userDefined _ => false
  | _ => true

/-! ## FormatType (`sql/oracle/convert.go` lines 17-78) -/

/-- The distinct error returns of `FormatType`, one constructor per
`fmt.Errorf` in the source. -/
inductive FormatErr where
  | scaleRange (s : Int)
  | precisionRange (p : Int)
  | unsupportedType (t : String)
  | invalidType (tag : String)
deriving Repr, DecidableEq

/-- `FormatType` from `convert.go`: canonical variant to native column form. -/
def FormatType : SType → Except FormatErr String
  | .binary _ size =>
    if size < 2 then .ok "raw(1)"
    else if size > 4000 then .ok "blob"
    else .ok (TypeRaw ++ "(" ++ toString size ++ ")")
  | .integer _ => .ok TypeInt
  | .string _ size =>
    if size < 2 then .ok "char(1)"
    else if size > 4000 then .ok "clob"
    else .ok (TypeVarchar ++ "(" ++ toString size ++ ")")
  | .time t => .ok (toLowerStr t)
  | .float t _ => .ok (toLowerStr t)
  | .decimal _ p s =>
    if p = 0 ∧ s = 0 then .ok TypeNumber
    else if s < 0 then .error (.scaleRange s)
    else if p = 0 ∧ s > 0 then .error (.precisionRange p)
    else if s = 0 then .ok (TypeNumber ++ "(" ++ toString p ++ ")")
    else .ok (TypeNumber ++ "(" ++ toString p ++ "," ++ toString s ++ ")")
  | .json t => .ok (toLowerStr t)
  | .unsupported t => .error (.unsupportedType t)
  | t => .error (.invalidType t.goTag)

/-! ## ParseType (`sql/oracle/convert.go` lines 89-186) -/

/-- The column descriptor filled by `parseColumn`. -/
structure columnDesc where
  typ : String
  size : Int := 0
  udt : String := ""
  precision : Int := 0
  scale : Int := 0
  typtype : String := ""
  typid : Int := 0
  parts : List String := []
deriving Repr, DecidableEq

/-- The distinct failure modes of `parseColumn` / `parseCharParts`;
`emptyInput` stands for the `parts[0]` index panic on an input with no fields. -/
inductive ParseErr where
  | emptyInput
  | precisionErr (tok : String)
  | scaleErr (tok : String)
  | sizeErr (tok : String)
deriving Repr, DecidableEq

/-- `parseCharParts` from `convert.go`: re-dispatch on the joined fields,
slice off the type tokens, then read an optional size. -/
def parseCharParts (parts : List String) (c : columnDesc) : Except ParseErr columnDesc :=
  let j := joinSpace parts
  let pr : String × List String :=
    if hasPrefixStr TypeVarchar j then (TypeVarchar, parts.drop 1)
    else if hasPrefixStr TypeNVarchar j then (TypeVarchar, parts.drop 1)
    else if hasPrefixStr TypeChar j then (TypeChar, parts.drop 2)
    else if hasPrefixStr TypeNChar j then (TypeNChar, parts.drop 2)
    else (c.typ, parts.drop 1)
  let c1 : columnDesc := { c with typ := pr.1 }
  match pr.2 with
  | [] => .ok c1
  | p :: _ =>
    match goParseInt64 p with
    | some n => .ok { c1 with size := n }
    | none => .error (.sizeErr p)

/-- `parseColumn` from `convert.go`. -/
def parseColumn (s : String) : Except ParseErr columnDesc :=
  match fieldsFunc s with
  | [] => .error .emptyInput
  | p0 :: rest =>
    let c : columnDesc := { typ := p0, parts := p0 :: rest }
    if p0 = TypeVarchar || p0 = TypeNVarchar || p0 = TypeChar || p0 = TypeNChar then
      parseCharParts (p0 :: rest) c
    else if p0 = TypeNumber then
      match rest with
      | [] => .ok c
      | p1 :: rest2 =>
        match goParseInt64 p1 with
        | none => .error (.precisionErr p1)
        | some prec =>
          match rest2 with
          | [] => .ok { c with precision := prec }
          | p2 :: _ =>
            match goParseInt64 p2 with
            | none => .error (.scaleErr p2)
            | some sc => .ok { c with precision := prec, scale := sc }
    else if p0 = TypeDouble then .ok { c with precision := 53 }
    else if p0 = TypeInt then .ok { c with precision := 32 }
    else if p0 = TypeFloat then .ok { c with precision := 24 }
    else .ok { c with typ := s }

/-- `columnType` from the inspector (`inspect.go` lines 226-251):
descriptor to canonical variant, dispatching case-insensitively on the
native spelling. -/
def columnType (c : columnDesc) : SType :=
  let t := c.typ
  let lt := toLowerStr t
  if lt = TypeInt then .integer t
  else if lt = TypeRaw then .binary t 0
  else if lt = TypeChar || lt = TypeNChar || lt = TypeVarchar || lt = TypeNVarchar then
    .string t c.size
  else if lt = TypeDate || lt = TypeTimestamp || lt = TypeTimestampTZ || lt = TypeTimestampLTZ then
    .time t
  else if lt = TypeIntervalDS || lt = TypeIntervalYM then .unsupported t
  else if lt = TypeDouble || lt = TypeFloat then .float t c.precision
  else if lt = TypeJSON then .json t
  else if lt = TypeNumber then .decimal t c.precision c.scale
  else .unsupported t

/-- `ParseType` from `convert.go`: parse a raw type expression and upgrade an
unknown result to the user-defined fallback. -/
def ParseType (typ : String) : Except ParseErr SType :=
  (parseColumn typ).map fun d =>
    match columnType d with
    | .unsupported t => .userDefined t
    | t => t

/-- Round-trip check used by the spec: `Format(Parse(x)) = x` with `Parse`
landing in a supported variant. -/
def roundTrip (x : String) : Bool :=
  match ParseType x with
  | .ok t =>
    isSupported t &&
      match FormatType t with
      | .ok y => y = x
      | .error _ => false
  | .error _ => false

/-! ## Inspector data model (`inspect.go`)

Entities carry exactly the facets the inspected claims read.  Go pointers
(`*schema.Column`, `*schema.Index`) become identification by name: each
assembled index part stores the referenced column's name, which the source
resolves against the owning table's column list. -/

/-- `schema.ColumnType`: raw spelling, nullability and canonical variant. -/
structure ColType where
  raw : String
  null : Bool := false
  type : SType
deriving Repr, DecidableEq

/-- `schema.Column` (the facets used by the inspector). -/
structure Column where
  name : String
  ctype : ColType
deriving Repr, DecidableEq

/-- `IndexColumnProperty` attribute scanned per index row. -/
structure IndexColumnProperty where
  asc : Bool
  desc : Bool
  nullsfirst : Bool
  nullslast : Bool
deriving Repr, DecidableEq

/-- `schema.IndexPart`: either a column reference (by name) or a raw
expression, plus the scanned column properties. -/
structure IndexPart where
  seqNo : Nat
  column : Option String := none
  expr : Option String := none
  props : IndexColumnProperty
deriving Repr, DecidableEq

/-- `schema.Index` with the attributes `addIndexes` attaches. -/
structure Index where
  name : String
  unique : Bool
  typ : String
  contype : Option String := none
  pred : Option String := none
  comment : Option String := none
  parts : List IndexPart := []
deriving Repr, DecidableEq

/-- `schema.Check` with its `CheckColumns` attribute. -/
structure Check where
  name : String
  expr : String
  noInherit : Bool := false
  columns : List String := []
deriving Repr, DecidableEq

/-- `schema.Table` (the facets used by the inspected claims). -/
structure Table where
  name : String
  schemaName : String := ""
  comment : Option String := none
  columns : List Column := []
  indexes : List Index := []
  primaryKey : Option Index := none
  checks : List Check := []
deriving Repr, DecidableEq

/-- `t.Column(name)`: first column with the given name. -/
def tableColumn (t : Table) (n : String) : Option Column :=
  t.columns.find? (fun c => c.name = n)

/-- Modelled from the spec: `sqlx.ValidString` (repository code not under
`src/`): a scanned nullable string is valid when it is non-NULL and non-empty. -/
def validString (o : Option String) : Bool :=
  match o with
  | none => false
  | some s => s ≠ ""

/-- Modelled from the spec: `sqlx.ScanOne` (repository code not under `src/`),
per the spec's "returning NotExistError if zero rows" for the identity query:
it yields the first row, and signals the no-rows condition (`sql.ErrNoRows`)
on an empty result. -/
def scanOne {α : Type} (rows : List α) : Option α := rows.head?

/-- The distinct error returns of the inspector, one constructor per error
construction site; `notExist` models `schema.NotExistError`. -/
inductive InspectErr where
  | notExist (msg : String)
  | queryErr (msg : String)
  | scanErr (msg : String)
  | columnNotFound (column index : String)
  | invalidPart (index : String)
  | checkColumnNotFound (column check : String)
deriving Repr, DecidableEq

/-- `schema.IsNotExistError`: the discriminator making not-found lookups
distinguishable from generic failures. -/
def isNotExist : InspectErr → Bool
  | .notExist _ => true
  | _ => false

/-! ## Index assembly (`addIndexes`, `inspect.go` lines 267-333)

The Go `names` map keyed by index name, whose values are the same pointers
stored in `t.Indexes`/`t.PrimaryKey`, is modelled as a list of entries in
first-seen order; lookup is by name, and appending a part updates the entry
in place.  The per-row primary flag is kept on the entry so that the final
table can separate the primary key from the ordinary index list exactly as
the source does at creation time. -/

/-- One scanned row of the index query, in scan order; `Option String` fields
model `sql.NullString` (and the `sql.NullBool` flags are read through `.Bool`,
i.e. invalid means `false`). -/
structure IndexRow where
  name : String
  typ : String
  column : Option String := none
  primary : Bool := false
  uniq : Bool := false
  contype : Option String := none
  pred : Option String := none
  expr : Option String := none
  asc : Bool := false
  desc : Bool := false
  nullsfirst : Bool := false
  nullslast : Bool := false
  comment : Option String := none
deriving Repr, DecidableEq

/-- An entry of the `names` map: the index under construction and whether its
first row carried the primary-key flag. -/
structure IdxEntry where
  idx : Index
  primary : Bool
deriving Repr, DecidableEq

/-- The fresh `schema.Index` built at a name's first row. -/
def mkIndexOfRow (r : IndexRow) : Index :=
  { name := r.name
    unique := r.uniq
    typ := r.typ
    comment := if validString r.comment then r.comment else none
    contype := if validString r.contype then r.contype else none
    pred := if validString r.pred then r.pred else none
    parts := [] }

/-- Lookup in the `names` map. -/
def findEntry (l : List IdxEntry) (n : String) : Option IdxEntry :=
  l.find? (fun e => e.idx.name = n)

/-- `idx.Parts = append(idx.Parts, part)` through the map: append the part to
the entry with the given name. -/
def updateEntry (l : List IdxEntry) (n : String) (p : IndexPart) : List IdxEntry :=
  l.map fun e =>
    if e.idx.name = n then { e with idx := { e.idx with parts := e.idx.parts ++ [p] } } else e

/-- Body of `addIndexes`'s `rows.Next()` loop for one row: get-or-create the
entry, build the part with `SeqNo = len(idx.Parts) + 1`, then dispatch on
expression/column validity (an entry's name always equals the row's name,
so the source's `idx.Name` in error messages is `r.name` here). -/
def addIndexesStep (t : Table) (st : List IdxEntry) (r : IndexRow) :
    Except InspectErr (List IdxEntry) :=
  let st1 :=
    match findEntry st r.name with
    | some _ => st
    | none => st ++ [{ idx := mkIndexOfRow r, primary := r.primary }]
  let part : IndexPart :=
    { seqNo := (((findEntry st1 r.name).map fun e => e.idx.parts).getD []).length + 1
      props :=
        { asc := r.asc, desc := r.desc, nullsfirst := r.nullsfirst, nullslast := r.nullslast } }
  if validString r.expr then
    .ok (updateEntry st1 r.name { part with expr := r.expr })
  else if validString r.column then
    let cn := r.column.getD ""
    if (tableColumn t cn).isSome then
      .ok (updateEntry st1 r.name { part with column := some cn })
    else .error (.columnNotFound cn r.name)
  else .error (.invalidPart r.name)

/-- The `rows.Next()` loop of `addIndexes`: run the step over the scanned
rows in order, aborting on the first error. -/
def addIndexesLoop (t : Table) (st : List IdxEntry) :
    List IndexRow → Except InspectErr (List IdxEntry)
  | [] => .ok st
  | r :: rows =>
    match addIndexesStep t st r with
    | .error e => .error e
    | .ok st1 => addIndexesLoop t st1 rows

/-- The assembled entries of `addIndexes`, starting from an empty `names` map. -/
def addIndexesEntries (t : Table) (rows : List IndexRow) :
    Except InspectErr (List IdxEntry) :=
  addIndexesLoop t [] rows

/-- `addIndexes`: assemble the entries, then place each index where the source
put it at creation time — a primary-flagged entry into `t.PrimaryKey`
(a later primary entry overwrites an earlier one, as successive assignments
do), the others appended to `t.Indexes` in first-seen order. -/
def addIndexes (t : Table) (rows : List IndexRow) : Except InspectErr Table :=
  (addIndexesEntries t rows).map fun es =>
    { t with
      indexes := t.indexes ++ (es.filter fun e => !e.primary).map fun e => e.idx
      primaryKey :=
        match (es.filter fun e => e.primary).getLast? with
        | some e => some e.idx
        | none => t.primaryKey }

/-! ## Check assembly (`addChecks`, `inspect.go` lines 362-388) -/

/-- One scanned row of the check-constraint query, in scan order. -/
structure CheckRow where
  name : String
  clause : String
  column : String
  indexes : String := ""
  noInherit : Bool := false
deriving Repr, DecidableEq

/-- Lookup in the `names` map of checks. -/
def findCheck (l : List Check) (n : String) : Option Check :=
  l.find? (fun c => c.name = n)

/-- Append a referenced column name to the `CheckColumns` attribute of the
check with the given name. -/
def updateCheck (l : List Check) (n col : String) : List Check :=
  l.map fun c => if c.name = n then { c with columns := c.columns ++ [col] } else c

/-- Body of `addChecks`'s row loop: reject a row whose column is absent from
the table, get-or-create the check, then accumulate the column name. -/
def addChecksStep (t : Table) (st : List Check) (r : CheckRow) :
    Except InspectErr (List Check) :=
  if (tableColumn t r.column).isNone then .error (.checkColumnNotFound r.column r.name)
  else
    let st1 :=
      match findCheck st r.name with
      | some _ => st
      | none => st ++ [{ name := r.name, expr := r.clause, noInherit := r.noInherit, columns := [] }]
    .ok (updateCheck st1 r.name r.column)

/-- The row loop of `addChecks`. -/
def addChecksLoop (t : Table) (st : List Check) :
    List CheckRow → Except InspectErr (List Check)
  | [] => .ok st
  | r :: rows =>
    match addChecksStep t st r with
    | .error e => .error e
    | .ok st1 => addChecksLoop t st1 rows

/-- `addChecks`: run the row loop and append the assembled checks to the
table's attributes. -/
def addChecks (t : Table) (rows : List CheckRow) : Except InspectErr Table :=
  (addChecksLoop t [] rows).map fun cs => { t with checks := t.checks ++ cs }

/-- The assembly pipeline of `inspectTable` after columns are populated:
index assembly then check assembly, each aborting the whole inspection on
error (the foreign-key step, `sqlx.ScanFKs`, resolves constraints the claims
do not touch and is not part of the inspected source). -/
def inspectTableModel (t : Table) (idxRows : List IndexRow) (chkRows : List CheckRow) :
    Except InspectErr Table := do
  let t1 ← addIndexes t idxRows
  addChecks t1 chkRows

/-! ## Table and schema resolution (`table`, `InspectSchema`; `inspect.go`) -/

/-- One row of the per-table identity query: owning schema and comment. -/
structure TableRow where
  schemaName : Option String := none
  comment : Option String := none
deriving Repr, DecidableEq

/-- `table` from `inspect.go` lines 119-150, as a function of the identity
query's outcome: a query failure propagates, zero rows become
`NotExistError`, and the first row populates the fresh table. -/
def tableFromRows (name : String) (res : Except String (List TableRow)) :
    Except InspectErr Table :=
  match res with
  | .error e => .error (.queryErr e)
  | .ok rows =>
    match scanOne rows with
    | none => .error (.notExist ("oracle: table " ++ name ++ " was not found"))
    | some r =>
      .ok { name := name
            schemaName := r.schemaName.getD ""
            comment := if validString r.comment then r.comment else none }

/-- A schema reference as assembled during resolution. -/
structure SchemaRef where
  name : String
deriving Repr, DecidableEq

/-- The schema-resolution switch of `InspectSchema` (`inspect.go` lines
52-71), as a function of the two query outcomes it may consult:
`attachedRes` is the result of the `USERENV('CURRENT SCHEMA')` query (issued
only when `name` is empty), `schemasRes` the accessible-schema-list query
filtered by `name` (issued only when `name` is non-empty). -/
def resolveSchemas (name : String) (attachedRes : Except String (List String))
    (schemasRes : Except String (List String)) : Except InspectErr (List SchemaRef) :=
  if name = "" then
    match attachedRes with
    | .error e => .error (.queryErr ("oracle: query attached schema: " ++ e))
    | .ok rows =>
      match scanOne rows with
      | none => .error (.scanErr "oracle: scan attached schema: sql: no rows in result set")
      | some n => .ok [{ name := n }]
  else
    match schemasRes with
    | .error e => .error (.queryErr ("oracle: querying schemas: " ++ e))
    | .ok names =>
      match names with
      | [] => .error (.notExist ("oracle: schema \x22" ++ name ++ "\x22 was not found"))
      | l => .ok (l.map fun n => { name := n })

/-! ## Default-expression classifier (`defaultExpr` / `canConvert`,
`inspect.go` lines 456-493) -/

/-- A column default: a parsed literal value or an opaque raw expression
(`schema.Literal` / `schema.RawExpr`). -/
inductive Expr where
  | literal (v : String)
  | rawExpr (x : String)
deriving Repr, DecidableEq

/-- The single-quote character (written via its code point). -/
def squote : Char := Char.ofNat 39

/-- Modelled from the spec: `sqlx.IsLiteralBool` (repository code not under
`src/`), per the spec's "boolean literal". -/
def isLiteralBool (s : String) : Bool := s = "true" || s = "false"

/-- Modelled from the spec: `sqlx.IsLiteralNumber` (repository code not under
`src/`), per the spec's "numeric literal": decimal digits with an optional
leading minus sign. -/
def isLiteralNumber (s : String) : Bool :=
  match s.toList with
  | '-' :: rest => !rest.isEmpty && rest.all Char.isDigit
  | l => !l.isEmpty && l.all Char.isDigit

/-- Modelled from the spec: `sqlx.IsQuoted(s, q)` (repository code not under
`src/`), per the spec's "single-quoted string literal": more than one
character, and the first and last are the quote. -/
def isQuotedWith (q : Char) (s : String) : Bool :=
  let l := s.toList
  decide (1 < l.length) && l.head? == some q && l.getLast? == some q

/-- The raw spelling the cast-unwrap matches against: the column's own raw
spelling, or the element type for an array column. -/
def castRawOf (ct : ColType) : String :=
  match ct.type with
  | .array et => et
  | _ => ct.raw

/-- The variants whose cast-unwrap always admits the quoted text. -/
def alwaysCastFamily : SType → Bool
  | .array _ => true
  | .binary _ _ => true
  | .json _ => true
  | .network _ => true
  | .spatial _ => true
  | .string _ _ => true
  | .time _ => true
  | .uuid _ => true
  | .xml _ => true
  | _ => false

/-- The variants whose cast-unwrap admits a numeric literal. -/
def numericCastFamily : SType → Bool
  | .decimal _ _ _ => true
  | .integer _ => true
  | .float _ _ => true
  | _ => false

/-- `canConvert` from `inspect.go`: try to unwrap `'<inner>'::<raw-type>`
against the column's own raw spelling (the array element type for arrays);
on a match, numeric/boolean variants admit the unquoted inner text when it is
a literal of their kind, while the string/time/binary/json/array/network/
spatial/UUID/XML family always admits the still-quoted text. -/
def canConvert (ct : ColType) (x : String) : Option String :=
  let r := castRawOf ct
  match findSub x ("::" ++ r) with
  | none => none
  | some i =>
    if isQuotedWith squote (strTake x i) then
      let q := strTake x i
      let inner := strSlice x 1 (i - 1)
      match ct.type with
      | .boolT _ => if isLiteralBool inner then some inner else none
      | .decimal _ _ _ => if isLiteralNumber inner then some inner else none
      | .integer _ => if isLiteralNumber inner then some inner else none
      | .float _ _ => if isLiteralNumber inner then some inner else none
      | .array _ => some q
      | .binary _ _ => some q
      | .json _ => some q
      | .network _ => some q
      | .spatial _ => some q
      | .string _ _ => some q
      | .time _ => some q
      | .uuid _ => some q
      | .xml _ => some q
      | _ => none
    else none

/-- `defaultExpr` from `inspect.go`: literal detection, then cast-unwrap,
then the raw-expression fallback. -/
def defaultExpr (c : Column) (x : String) : Expr :=
  if isLiteralBool x || isLiteralNumber x || isQuotedWith squote x then .literal x
  else
    match canConvert c.ctype x with
    | some v => .literal v
    | none => .rawExpr x

/-! ## Connection gate (`Open`, `sql/oracle/driver.go` lines 39-66)

`Open`'s version check calls `semver.Compare("v"+version, "v10.0.0")` from
`golang.org/x/mod/semver`; that library is embedded below at the character
level (faithful on ASCII, which is all a 6-character catalog version can
meaningfully contain): strict Semantic Versioning 2.0.0 parsing — in
particular, a numeric identifier with a leading zero is invalid — and the
rule that an invalid version compares below any valid one. -/

/-- `isIdentChar` from `x/mod/semver`. -/
def isIdentChar (c : Char) : Bool :=
  ('A' ≤ c && c ≤ 'Z') || ('a' ≤ c && c ≤ 'z') || ('0' ≤ c && c ≤ '9') || c = '-'

/-- Longest digit run at the front. -/
def takeDigits : List Char → List Char × List Char
  | [] => ([], [])
  | c :: cs =>
    if c.isDigit then
      let p := takeDigits cs
      (c :: p.1, p.2)
    else ([], c :: cs)

/-- `parseInt` from `x/mod/semver`: a non-empty digit run with no leading
zero (unless it is the single digit `0`). -/
def parseIntSem : List Char → Option (List Char × List Char)
  | [] => none
  | c :: cs =>
    if c.isDigit then
      let p := takeDigits (c :: cs)
      if c = '0' && p.1.length != 1 then none else some p
    else none

/-- Split on `.` (for prerelease/build identifier segments). -/
def splitDotAux (cur : List Char) : List Char → List (List Char)
  | [] => [cur.reverse]
  | c :: cs => if c = '.' then cur.reverse :: splitDotAux [] cs else splitDotAux (c :: cur) cs

/-- Dot-separated segments of a character list. -/
def splitDot (l : List Char) : List (List Char) := splitDotAux [] l

/-- `isBadNum` from `x/mod/semver`: all digits, longer than one, leading zero. -/
def isBadNum (v : List Char) : Bool :=
  v.all Char.isDigit && decide (1 < v.length) && v.head? == some '0'

/-- `isNum` from `x/mod/semver`. -/
def isNumSeg (v : List Char) : Bool := v.all Char.isDigit

/-- `parsePrerelease` from `x/mod/semver`: `-` followed by non-empty
dot-separated identifier segments (valid characters only, no numeric segment
with a leading zero), stopping at a `+`. -/
def parsePre (v : List Char) : Option (List Char × List Char) :=
  match v with
  | [] => none
  | c :: w =>
    if c = '-' then
      let body := w.takeWhile (fun d => d != '+')
      let rest := w.dropWhile (fun d => d != '+')
      let segs := splitDot body
      if body.all (fun d => isIdentChar d || d = '.') &&
          segs.all (fun s => !s.isEmpty && !isBadNum s) then
        some ('-' :: body, rest)
      else none
    else none

/-- `parseBuild` from `x/mod/semver`: `+` followed by non-empty dot-separated
identifier segments, consuming the remainder of the string. -/
def parseBuildSem (v : List Char) : Option (List Char × List Char) :=
  match v with
  | [] => none
  | c :: w =>
    if c = '+' then
      let segs := splitDot w
      if w.all (fun d => isIdentChar d || d = '.') && segs.all (fun s => !s.isEmpty) then
        some ('+' :: w, [])
      else none
    else none

/-- The fields of `x/mod/semver`'s `parsed` struct that `Compare` reads. -/
structure SemParsed where
  major : List Char
  minor : List Char
  patch : List Char
  pre : List Char
deriving Repr, DecidableEq

/-- Prerelease/build/leftover handling after the patch component of
`parse` from `x/mod/semver`. -/
def semParseTail (maj minr pat r5 : List Char) : Option SemParsed :=
  match r5 with
  | [] => some ⟨maj, minr, pat, []⟩
  | c :: _ =>
    if c = '-' then
      match parsePre r5 with
      | none => none
      | some (pre, r6) =>
        match r6 with
        | [] => some ⟨maj, minr, pat, pre⟩
        | c2 :: _ =>
          if c2 = '+' then
            match parseBuildSem r6 with
            | none => none
            | some (_, r7) => if r7.isEmpty then some ⟨maj, minr, pat, pre⟩ else none
          else none
    else if c = '+' then
      match parseBuildSem r5 with
      | none => none
      | some (_, r6) => if r6.isEmpty then some ⟨maj, minr, pat, []⟩ else none
    else none

/-- `parse` from `x/mod/semver`: leading `v`, then dotted major/minor/patch
(missing minor/patch default to `0`), then optional prerelease and build;
the dot separators are tested explicitly, as in the source. -/
def semParse (v : List Char) : Option SemParsed :=
  match v with
  | [] => none
  | c :: w =>
    if c = 'v' then
      match parseIntSem w with
      | none => none
      | some (maj, r1) =>
        match r1 with
        | [] => some ⟨maj, ['0'], ['0'], []⟩
        | d1 :: r2 =>
          if d1 = '.' then
            match parseIntSem r2 with
            | none => none
            | some (minr, r3) =>
              match r3 with
              | [] => some ⟨maj, minr, ['0'], []⟩
              | d2 :: r4 =>
                if d2 = '.' then
                  match parseIntSem r4 with
                  | none => none
                  | some (pat, r5) => semParseTail maj minr pat r5
                else none
          else none
    else none

/-- Go's byte-wise `<` on strings, at character level. -/
def clLt : List Char → List Char → Bool
  | [], [] => false
  | [], _ :: _ => true
  | _ :: _, [] => false
  | a :: as, b :: bs => if a < b then true else if b < a then false else clLt as bs

/-- `compareInt` from `x/mod/semver`: shorter numeric identifier is smaller,
equal lengths compare lexicographically. -/
def compareIntG (x y : List Char) : Int :=
  if x = y then 0
  else if x.length < y.length then -1
  else if y.length < x.length then 1
  else if clLt x y then -1
  else 1

/-- `nextIdent` from `x/mod/semver`. -/
def nextIdentSem (x : List Char) : List Char × List Char :=
  (x.takeWhile (fun c => c != '.'), x.dropWhile (fun c => c != '.'))

/-- The identifier-by-identifier loop of `comparePrerelease`, fuelled (the
fuel of `comparePre` strictly bounds the number of iterations). -/
def cmpPreLoop : Nat → List Char → List Char → Int
  | 0, x, _ => if x.isEmpty then -1 else 1
  | n + 1, x, y =>
    if x.isEmpty || y.isEmpty then (if x.isEmpty then -1 else 1)
    else
      let xt := x.tail
      let yt := y.tail
      let dx := (nextIdentSem xt).1
      let rx := (nextIdentSem xt).2
      let dy := (nextIdentSem yt).1
      let ry := (nextIdentSem yt).2
      if dx = dy then cmpPreLoop n rx ry
      else
        let ix := isNumSeg dx
        let iy := isNumSeg dy
        if ix != iy then (if ix then -1 else 1)
        else if ix && dx.length ≠ dy.length then (if dx.length < dy.length then -1 else 1)
        else if clLt dx dy then -1
        else 1

/-- `comparePrerelease` from `x/mod/semver`: equality, then "no prerelease
sorts above any prerelease", then the identifier loop. -/
def comparePre (x y : List Char) : Int :=
  if x = y then 0
  else if x.isEmpty then 1
  else if y.isEmpty then -1
  else cmpPreLoop (x.length + y.length) x y

/-- `Compare` from `x/mod/semver`: an invalid version sorts below a valid
one; valid versions compare by major, minor, patch, then prerelease. -/
def semverCmp (v w : List Char) : Int :=
  match semParse v, semParse w with
  | none, none => 0
  | none, some _ => -1
  | some _, none => 1
  | some pv, some pw =>
    let c1 := compareIntG pv.major pw.major
    if c1 ≠ 0 then c1
    else
      let c2 := compareIntG pv.minor pw.minor
      if c2 ≠ 0 then c2
      else
        let c3 := compareIntG pv.patch pw.patch
        if c3 ≠ 0 then c3
        else comparePre pv.pre pw.pre

/-- The connection data `Open` stores on success. -/
structure Conn where
  collate : String
  ctype : String
  version : String
deriving Repr, DecidableEq

/-- The distinct error returns of `Open`'s parameter handling. -/
inductive OpenErr where
  | rowCount (n : Nat)
  | malformedVersion (v : String)
  | unsupportedVersion (v : String)
deriving Repr, DecidableEq

/-- `fmt.Sprintf("%s.%s.%s", v[:2], v[2:4], v[4:])` on the 6-character
version string. -/
def reformatChars (l : List Char) : List Char :=
  l.take 2 ++ '.' :: ((l.drop 2).take 2 ++ '.' :: l.drop 4)

/-- The reformatted `XX.YY.ZZ` version string. -/
def reformatVersion (v : String) : String := String.mk (reformatChars v.toList)

/-- The constant `"v10.0.0"` the version gate compares against. -/
def v1000 : List Char := ['v', '1', '0', '.', '0', '.', '0']

/-- `Open` from `driver.go`, as a function of the scanned system parameters
(ordered `lc_collate, lc_ctype, server_version_num` by the query's
`ORDER BY name`): exactly three values, a 6-character version, and the
semver gate `Compare("v"+version, "v10.0.0") == -1`. -/
def openConn (params : List String) : Except OpenErr Conn :=
  match params with
  | [collate, ctype, version] =>
    if version.toList.length ≠ 6 then .error (.malformedVersion version)
    else
      let v' := reformatChars version.toList
      if semverCmp ('v' :: v') v1000 ≠ -1 then .error (.unsupportedVersion (String.mk v'))
      else .ok { collate := collate, ctype := ctype, version := String.mk v' }
  | ps => .error (.rowCount ps.length)

/-- Numeric reading of a 6-character catalog version string as the
`(major, minor, patch)` triple its `XX.YY.ZZ` reformatting denotes
(defined only when all six characters are decimal digits). -/
def versionNums (v : String) : Option (Nat × Nat × Nat) :=
  match v.toList with
  | [c0, c1, c2, c3, c4, c5] =>
    if (c0.isDigit && c1.isDigit && c2.isDigit && c3.isDigit && c4.isDigit && c5.isDigit) then
      some ((c0.toNat - 48) * 10 + (c1.toNat - 48),
            (c2.toNat - 48) * 10 + (c3.toNat - 48),
            (c4.toNat - 48) * 10 + (c5.toNat - 48))
    else none
  | _ => none

/-- The shape under which the reformatted `XX.YY.ZZ` of a 6-character version
is valid semver: all six characters are decimal digits and the leading digit
of each two-character group is non-zero (a leading zero makes the numeric
identifier invalid under Semantic Versioning 2.0.0). -/
def validSemVer6 (c0 c1 c2 c3 c4 c5 : Char) : Bool :=
  c0.isDigit && c1.isDigit && c2.isDigit && c3.isDigit && c4.isDigit && c5.isDigit &&
    c0 != '0' && c2 != '0' && c4 != '0'

/-- Insert a name at the end unless already present. -/
def insName (acc : List String) (n : String) : List String :=
  if n ∈ acc then acc else acc ++ [n]

/-- First-seen deduplication of a name stream: the grouping order the
`names` map induces on index construction. -/
def firstSeen (l : List String) : List String := l.foldl insName []

/-- The names of the assembled index entries, in construction order. -/
def entryNames (es : List IdxEntry) : List String := es.map fun e => e.idx.name

/-- The total number of parts across the assembled index entries. -/
def entryPartsSum (es : List IdxEntry) : Nat := (es.map fun e => e.idx.parts.length).sum

/-- The sequence numbers of an assembled part list. -/
def partsSeqNos (ps : List IndexPart) : List Nat := ps.map fun p => p.seqNo

/-- Contiguity from 1: the shape `[1, 2, ..., n]`. -/
def contiguousFromOne (ps : List IndexPart) : Prop :=
  partsSeqNos ps = (List.range ps.length).map (· + 1)

/-! ## Concrete fixtures used by the settled claims -/

/-- A two-column table, fully populated by the column phase. -/
def exTable : Table :=
  { name := "t1"
    columns := [{ name := "col1", ctype := { raw := "int", type := .integer "int" } },
                { name := "col2", ctype := { raw := "int", type := .integer "int" } }] }

/-- Index row `(idx_a, col1)`. -/
def exRow1 : IndexRow := { name := "idx_a", typ := "BTREE", column := some "col1" }

/-- Index row `(idx_a, col2)`. -/
def exRow2 : IndexRow := { name := "idx_a", typ := "BTREE", column := some "col2" }

/-- An index row carrying the primary-key flag. -/
def exRowPk : IndexRow := { name := "t1_pkey", typ := "BTREE", column := some "col1", primary := true }

/-- An index row naming a column absent from `exTable`. -/
def exRowBad : IndexRow := { name := "idx_bad", typ := "BTREE", column := some "ghost" }

/-- A check row naming a column absent from `exTable`. -/
def exCheckBad : CheckRow := { name := "chk1", clause := "ghost > 0", column := "ghost" }

/-- The single index assembled from `[exRow1, exRow2]`. -/
def exIdxA : Index :=
  { name := "idx_a", unique := false, typ := "BTREE",
    parts := [{ seqNo := 1, column := some "col1",
                props := { asc := false, desc := false, nullsfirst := false, nullslast := false } },
              { seqNo := 2, column := some "col2",
                props := { asc := false, desc := false, nullsfirst := false, nullslast := false } }] }

/-- The primary-key index assembled from `[exRowPk]`. -/
def exPkIdx : Index :=
  { name := "t1_pkey", unique := false, typ := "BTREE",
    parts := [{ seqNo := 1, column := some "col1",
                props := { asc := false, desc := false, nullsfirst := false, nullslast := false } }] }

/-- A column of canonical `Time` type with raw spelling `date`. -/
def exTimeCol : Column := { name := "d", ctype := { raw := "date", type := .time "date" } }

/-- A column of canonical `Decimal` type with raw spelling `number`. -/
def exNumCol : Column := { name := "n", ctype := { raw := "number", type := .decimal "number" 10 2 } }

/-! # Theorems settling the claims -/

/-- C1 (counterexample): the round trip is not a no-op for every input that
`Parse` decodes into a supported variant.  `char(10)` parses into the
supported `StringType` variant — but with its size dropped (the char branch
of `parseCharParts` slices off two tokens), so formatting yields `char(1)`,
not `char(10)`; and `nvarchar2(30)` is renamed to `varchar2` by `Parse`, so
formatting yields `varchar2(30)`.  Neither differs from its input merely by
whitespace. -/
theorem c1_roundtrip_counterexample :
    ParseType "char(10)" = .ok (.string "char" 0) ∧
    isSupported (.string "char" 0) = true ∧
    FormatType (.string "char" 0) = .ok "char(1)" ∧
    roundTrip "char(10)" = false ∧
    ParseType "nvarchar2(30)" = .ok (.string "varchar2" 30) ∧
    FormatType (.string "varchar2" 30) = .ok "varchar2(30)" ∧
    roundTrip "nvarchar2(30)" = false := by
  refine ⟨?_, ?_, ?_, ?_, ?_, ?_, ?_⟩ <;> decide

/-- C1 (amended): `Format(Parse(x)) = x` does hold for the seven
representative inputs — `varchar2(255)`, `number(10,2)`, `number(5)`, `int`,
`date`, `timestamp with time zone`, `json` — each of which parses into a
supported variant; the universal form of the claim fails on char-family
spellings with an explicit size (`char(n)`, `nchar(n)`, whose size is
dropped) and on `nvarchar2(n)` (renamed to `varchar2`). -/
theorem c1_roundtrip_amended :
    roundTrip "varchar2(255)" = true ∧
    roundTrip "number(10,2)" = true ∧
    roundTrip "number(5)" = true ∧
    roundTrip "int" = true ∧
    roundTrip "date" = true ∧
    roundTrip "timestamp with time zone" = true ∧
    roundTrip "json" = true := by
  refine ⟨?_, ?_, ?_, ?_, ?_, ?_, ?_⟩ <;> decide

/-- C5: `Format` on a Decimal obeys exactly the stated case policy: negative
scale errors (a scale error), non-zero scale with zero precision errors
(a precision-range error), zero/zero emits the bare `number`, zero scale
with non-zero precision emits `number(p)`, and the remaining combinations
emit `number(p,s)`. -/
theorem c5_decimal_format (p s : Int) :
    (s < 0 → FormatType (.decimal "number" p s) = .error (.scaleRange s)) ∧
    (p = 0 → 0 < s → FormatType (.decimal "number" p s) = .error (.precisionRange p)) ∧
    (p = 0 → s = 0 → FormatType (.decimal "number" p s) = .ok "number") ∧
    (s = 0 → p ≠ 0 → FormatType (.decimal "number" p s) = .ok ("number(" ++ toString p ++ ")")) ∧
    (0 < s → p ≠ 0 →
      FormatType (.decimal "number" p s) = .ok ("number(" ++ toString p ++ "," ++ toString s ++ ")")) := by
  refine ⟨?_, ?_, ?_, ?_, ?_⟩ <;> intro h1 <;> try intro h2
  · simp only [FormatType]
    rw [if_neg (by omega), if_pos h1]
  · simp only [FormatType]
    rw [if_neg (by omega), if_neg (by omega), if_pos ⟨h1, h2⟩]
  · simp only [FormatType]
    rw [if_pos ⟨h1, h2⟩]
    rfl
  · simp only [FormatType]
    rw [if_neg (by omega), if_neg (by omega), if_neg (by omega), if_pos h1]
    rfl
  · simp only [FormatType]
    rw [if_neg (by omega), if_neg (by omega), if_neg (by omega), if_neg (by omega)]
    rfl

/-- C5 (witness): the three representative instances, obtained from
`c5_decimal_format` at concrete precision/scale pairs. -/
theorem c5_decimal_format_witness :
    FormatType (.decimal "number" 0 (-1)) = .error (.scaleRange (-1)) ∧
    FormatType (.decimal "number" 0 2) = .error (.precisionRange 0) ∧
    FormatType (.decimal "number" 10 0) = .ok "number(10)" :=
  ⟨(c5_decimal_format 0 (-1)).1 (by decide),
   (c5_decimal_format 0 2).2.1 rfl (by decide),
   (c5_decimal_format 10 0).2.2.2.1 rfl (by decide)⟩

/-- C6: three-way bucketing with fixed boundaries 2 and 4000 (upper boundary
inclusive): a Binary below size 2 formats as `raw(1)`, above 4000 as `blob`,
and in range as `raw(size)`; a String below size 2 formats as `char(1)`,
above 4000 as `clob`, and in range as `varchar2(size)`. -/
theorem c6_size_bucketing (t : String) (size : Int) :
    (size < 2 → FormatType (.binary t size) = .ok "raw(1)") ∧
    (size > 4000 → FormatType (.binary t size) = .ok "blob") ∧
    (2 ≤ size → size ≤ 4000 → FormatType (.binary t size) = .ok ("raw(" ++ toString size ++ ")")) ∧
    (size < 2 → FormatType (.string t size) = .ok "char(1)") ∧
    (size > 4000 → FormatType (.string t size) = .ok "clob") ∧
    (2 ≤ size → size ≤ 4000 →
      FormatType (.string t size) = .ok ("varchar2(" ++ toString size ++ ")")) := by
  refine ⟨?_, ?_, ?_, ?_, ?_, ?_⟩ <;> intro h1 <;> try intro h2
  · simp only [FormatType]
    rw [if_pos h1]
  · simp only [FormatType]
    rw [if_neg (by omega), if_pos h1]
  · simp only [FormatType]
    rw [if_neg (by omega), if_neg (by omega)]
    rfl
  · simp only [FormatType]
    rw [if_pos h1]
  · simp only [FormatType]
    rw [if_neg (by omega), if_pos h1]
  · simp only [FormatType]
    rw [if_neg (by omega), if_neg (by omega)]
    rfl

/-- C6 (witness): `Format(Binary{Size:1}) = raw(1)`,
`Format(Binary{Size:4001}) = blob`, `Format(String{Size:4000}) =
varchar2(4000)`, obtained from `c6_size_bucketing` at those sizes. -/
theorem c6_size_bucketing_witness :
    FormatType (.binary "raw" 1) = .ok "raw(1)" ∧
    FormatType (.binary "raw" 4001) = .ok "blob" ∧
    FormatType (.string "varchar2" 4000) = .ok "varchar2(4000)" :=
  ⟨(c6_size_bucketing "raw" 1).1 (by decide),
   (c6_size_bucketing "raw" 4001).2.1 (by decide),
   (c6_size_bucketing "varchar2" 4000).2.2.2.2.2 (by decide) (by decide)⟩

/-- C8: `Format` on an `UnsupportedType`, and on every type value outside the
set of variants its switch handles (the user-defined fallback, boolean,
array, network, spatial, UUID and XML values), always fails with the
descriptive error of the corresponding source case and never produces a DDL
spelling. -/
theorem c8_format_unsupported (t : String) :
    FormatType (.unsupported t) = .error (.unsupportedType t) ∧
    FormatType (.userDefined t) = .error (.invalidType "*oracle.UserDefinedType") ∧
    FormatType (.boolT t) = .error (.invalidType "*schema.BoolType") ∧
    FormatType (.array t) = .error (.invalidType "*oracle.ArrayType") ∧
    FormatType (.network t) = .error (.invalidType "*oracle.NetworkType") ∧
    FormatType (.spatial t) = .error (.invalidType "*schema.SpatialType") ∧
    FormatType (.uuid t) = .error (.invalidType "*oracle.UUIDType") ∧
    FormatType (.xml t) = .error (.invalidType "*oracle.XMLType") :=
  ⟨rfl, rfl, rfl, rfl, rfl, rfl, rfl, rfl⟩

/-- C9 (counterexample): `Parse` does set the default precision 32 on the
descriptor for the `int` keyword, but the canonical variant produced for it
is the `IntegerType` value, which carries no precision facet at all — so the
canonical type for `int` does not carry the default precision. -/
theorem c9_int_precision_counterexample :
    (parseColumn "int").map (fun d => d.precision) = .ok 32 ∧
    ParseType "int" = .ok (.integer "int") ∧
    typePrecision (.integer "int") = none := by
  refine ⟨?_, ?_, ?_⟩ <;> decide

/-- C9 (amended): `Parse` applies the fixed default precisions 53/32/24 to
the descriptors of the `double`/`int`/`float` keywords; the canonical
`FloatType` produced for `double` and `float` carries that precision, while
the canonical `IntegerType` produced for `int` has no precision facet, so 32
stays on the descriptor only. -/
theorem c9_default_precisions :
    (parseColumn "double").map (fun d => d.precision) = .ok 53 ∧
    ParseType "double" = .ok (.float "double" 53) ∧
    typePrecision (.float "double" 53) = some 53 ∧
    (parseColumn "float").map (fun d => d.precision) = .ok 24 ∧
    ParseType "float" = .ok (.float "float" 24) ∧
    typePrecision (.float "float" 24) = some 24 ∧
    (parseColumn "int").map (fun d => d.precision) = .ok 32 ∧
    ParseType "int" = .ok (.integer "int") ∧
    typePrecision (.integer "int") = none := by
  refine ⟨?_, ?_, ?_, ?_, ?_, ?_, ?_, ?_, ?_⟩ <;> decide

/-! ## Lemmas on index assembly (towards C2/C3) -/

/-- Appending a part never changes the entry names. -/
theorem updateEntry_names (l : List IdxEntry) (n : String) (p : IndexPart) :
    entryNames (updateEntry l n p) = entryNames l := by
  induction l with
  | nil => rfl
  | cons e es ih =>
    by_cases h : e.idx.name = n <;>
      simp only [updateEntry, entryNames, List.map_cons] at ih ⊢ <;>
      simp [h, ih]

/-- Updating a name that is absent is the identity. -/
theorem updateEntry_id (l : List IdxEntry) (n : String) (p : IndexPart)
    (h : n ∉ entryNames l) : updateEntry l n p = l := by
  induction l with
  | nil => rfl
  | cons e es ih =>
    simp only [entryNames, List.map_cons, List.mem_cons, not_or] at h
    simp only [updateEntry, List.map_cons] at ih ⊢
    rw [if_neg (fun hh => h.1 hh.symm), ih h.2]

/-- A found entry is a member carrying the searched name. -/
theorem findEntry_mem {l : List IdxEntry} {n : String} {e : IdxEntry}
    (h : findEntry l n = some e) : e ∈ l ∧ e.idx.name = n :=
  ⟨List.mem_of_find?_eq_some h, by simpa using List.find?_some h⟩

/-- A failed lookup means the name is absent. -/
theorem findEntry_none {l : List IdxEntry} {n : String} (h : findEntry l n = none) :
    n ∉ entryNames l := by
  rw [findEntry, List.find?_eq_none] at h
  intro hmem
  obtain ⟨e, he, hname⟩ := List.mem_map.mp hmem
  exact h e he (by simp [hname])

/-- After appending the fresh entry for an unseen name, lookup finds it. -/
theorem findEntry_append_new (st : List IdxEntry) (r : IndexRow)
    (h : findEntry st r.name = none) :
    findEntry (st ++ [{ idx := mkIndexOfRow r, primary := r.primary }]) r.name =
      some { idx := mkIndexOfRow r, primary := r.primary } := by
  unfold findEntry at h ⊢
  rw [List.find?_append, h]
  simp [mkIndexOfRow]

/-- Updating the uniquely named entry adds exactly one part to the total. -/
theorem updateEntry_sum (l : List IdxEntry) (n : String) (p : IndexPart)
    (hnd : (entryNames l).Nodup) (hmem : n ∈ entryNames l) :
    entryPartsSum (updateEntry l n p) = entryPartsSum l + 1 := by
  induction l with
  | nil => simp [entryNames] at hmem
  | cons e es ih =>
    simp only [entryNames, List.map_cons, List.nodup_cons, List.mem_cons] at hnd hmem
    simp only [updateEntry, List.map_cons] at ih ⊢
    by_cases h : e.idx.name = n
    · have hnot : n ∉ entryNames es := by rw [← h]; exact hnd.1
      rw [if_pos h]
      have hid : updateEntry es n p = es := updateEntry_id es n p hnot
      simp only [updateEntry] at hid
      rw [hid]
      simp only [entryPartsSum, List.map_cons, List.sum_cons, List.length_append,
        List.length_singleton]
      omega
    · have hmem' : n ∈ entryNames es :=
        hmem.resolve_left fun hn => h hn.symm
      rw [if_neg h]
      have := ih hnd.2 hmem'
      simp only [entryPartsSum, List.map_cons, List.sum_cons] at this ⊢
      omega

/-- Contiguity is preserved by appending the next sequence number. -/
theorem contiguous_append (ps : List IndexPart) (q : IndexPart)
    (hc : contiguousFromOne ps) (hq : q.seqNo = ps.length + 1) :
    contiguousFromOne (ps ++ [q]) := by
  unfold contiguousFromOne partsSeqNos at hc ⊢
  rw [List.map_append, hc, List.length_append]
  simp [List.range_succ, hq]

/-- Appending the next part of the found entry preserves contiguity of every
entry (the names being distinct, only the found entry changes). -/
theorem updateEntry_contig (l : List IdxEntry) (n : String) (p : IndexPart)
    (e0 : IdxEntry) (hnd : (entryNames l).Nodup) (hfind : findEntry l n = some e0)
    (hc : ∀ e ∈ l, contiguousFromOne e.idx.parts)
    (hp : p.seqNo = e0.idx.parts.length + 1) :
    ∀ e ∈ updateEntry l n p, contiguousFromOne e.idx.parts := by
  intro e he
  unfold updateEntry at he
  obtain ⟨a, ha, rfl⟩ := List.mem_map.mp he
  by_cases h : a.idx.name = n
  · have hae : a = e0 :=
      List.inj_on_of_nodup_map hnd ha (findEntry_mem hfind).1
        (by rw [h, (findEntry_mem hfind).2])
    rw [if_pos h]
    exact contiguous_append _ _ (hc a ha) (by rw [hp, hae])
  · rw [if_neg h]
    exact hc a ha

/-- Behaviour of one successful step of the index-row loop: the names evolve
by first-seen insertion, stay distinct, all entries stay contiguous, and the
part count grows by exactly one. -/
theorem addIndexesStep_ok (t : Table) (st st' : List IdxEntry) (r : IndexRow)
    (hnd : (entryNames st).Nodup)
    (hc : ∀ e ∈ st, contiguousFromOne e.idx.parts)
    (h : addIndexesStep t st r = .ok st') :
    entryNames st' = insName (entryNames st) r.name ∧
    (entryNames st').Nodup ∧
    (∀ e ∈ st', contiguousFromOne e.idx.parts) ∧
    entryPartsSum st' = entryPartsSum st + 1 := by
  cases hfind : findEntry st r.name with
  | some e0 =>
    have hmem : r.name ∈ entryNames st := by
      rcases findEntry_mem hfind with ⟨hm, hn⟩
      exact hn ▸ List.mem_map_of_mem _ hm
    have hins : insName (entryNames st) r.name = entryNames st := if_pos hmem
    simp only [addIndexesStep, hfind, Option.map_some', Option.getD_some] at h
    by_cases hexpr : validString r.expr = true
    · rw [if_pos hexpr] at h
      cases h
      refine ⟨?_, ?_, ?_, ?_⟩
      · rw [updateEntry_names, hins]
      · rw [updateEntry_names]; exact hnd
      · exact updateEntry_contig st r.name _ e0 hnd hfind hc (by simp)
      · rw [updateEntry_sum st r.name _ hnd hmem]
    · rw [if_neg hexpr] at h
      by_cases hcol : validString r.column = true
      · rw [if_pos hcol] at h
        by_cases hfound : (tableColumn t (r.column.getD "")).isSome = true
        · rw [if_pos hfound] at h
          cases h
          refine ⟨?_, ?_, ?_, ?_⟩
          · rw [updateEntry_names, hins]
          · rw [updateEntry_names]; exact hnd
          · exact updateEntry_contig st r.name _ e0 hnd hfind hc (by simp)
          · rw [updateEntry_sum st r.name _ hnd hmem]
        · rw [if_neg hfound] at h
          cases h
      · rw [if_neg hcol] at h
        cases h
  | none =>
    have hnew := findEntry_append_new st r hfind
    have hnot : r.name ∉ entryNames st := findEntry_none hfind
    have hnames1 : entryNames (st ++ [{ idx := mkIndexOfRow r, primary := r.primary }]) =
        entryNames st ++ [r.name] := by
      simp [entryNames, mkIndexOfRow]
    have hmem1 : r.name ∈ entryNames (st ++ [{ idx := mkIndexOfRow r, primary := r.primary }]) := by
      rw [hnames1]; simp
    have hnd1 : (entryNames (st ++ [{ idx := mkIndexOfRow r, primary := r.primary }])).Nodup := by
      rw [hnames1]
      simp [List.nodup_append, hnd, hnot]
    have hc1 : ∀ e ∈ st ++ [{ idx := mkIndexOfRow r, primary := r.primary }],
        contiguousFromOne e.idx.parts := by
      intro e he
      rcases List.mem_append.mp he with hm | hm
      · exact hc e hm
      · rcases List.mem_singleton.mp hm with rfl
        rfl
    have hsum1 : entryPartsSum (st ++ [{ idx := mkIndexOfRow r, primary := r.primary }]) =
        entryPartsSum st := by
      simp [entryPartsSum, mkIndexOfRow]
    have hins : insName (entryNames st) r.name = entryNames st ++ [r.name] := if_neg hnot
    simp only [addIndexesStep, hfind, hnew, Option.map_some', Option.getD_some] at h
    by_cases hexpr : validString r.expr = true
    · rw [if_pos hexpr] at h
      cases h
      refine ⟨?_, ?_, ?_, ?_⟩
      · rw [updateEntry_names, hnames1, hins]
      · rw [updateEntry_names]; exact hnd1
      · exact updateEntry_contig _ r.name _ _ hnd1 hnew hc1 (by simp [mkIndexOfRow])
      · rw [updateEntry_sum _ r.name _ hnd1 hmem1, hsum1]
    · rw [if_neg hexpr] at h
      by_cases hcol : validString r.column = true
      · rw [if_pos hcol] at h
        by_cases hfound : (tableColumn t (r.column.getD "")).isSome = true
        · rw [if_pos hfound] at h
          cases h
          refine ⟨?_, ?_, ?_, ?_⟩
          · rw [updateEntry_names, hnames1, hins]
          · rw [updateEntry_names]; exact hnd1
          · exact updateEntry_contig _ r.name _ _ hnd1 hnew hc1 (by simp [mkIndexOfRow])
          · rw [updateEntry_sum _ r.name _ hnd1 hmem1, hsum1]
        · rw [if_neg hfound] at h
          cases h
      · rw [if_neg hcol] at h
        cases h

/-- Loop invariant of the index-row loop. -/
theorem addIndexesLoop_inv (t : Table) :
    ∀ (rows : List IndexRow) (st es : List IdxEntry),
      (entryNames st).Nodup →
      (∀ e ∈ st, contiguousFromOne e.idx.parts) →
      addIndexesLoop t st rows = .ok es →
      entryNames es = (rows.map fun r => r.name).foldl insName (entryNames st) ∧
      (entryNames es).Nodup ∧
      (∀ e ∈ es, contiguousFromOne e.idx.parts) ∧
      entryPartsSum es = entryPartsSum st + rows.length := by
  intro rows
  induction rows with
  | nil =>
    intro st es hnd hc h
    cases h
    exact ⟨rfl, hnd, hc, rfl⟩
  | cons r rows ih =>
    intro st es hnd hc h
    simp only [addIndexesLoop] at h
    cases hstep : addIndexesStep t st r with
    | error e => rw [hstep] at h; cases h
    | ok st1 =>
      rw [hstep] at h
      obtain ⟨hn, hnd1, hc1, hs⟩ := addIndexesStep_ok t st st1 r hnd hc hstep
      obtain ⟨ihn, ihnd, ihc, ihs⟩ := ih st1 es hnd1 hc1 h
      refine ⟨?_, ihnd, ihc, ?_⟩
      · rw [ihn, hn]
        simp
      · rw [ihs, hs]
        simp only [List.length_cons]
        omega

/-- C2: index assembly groups rows by name into one entry per distinct name in
first-seen order (`entryNames es = firstSeen` of the row names), every
assembled index has contiguous `SeqNo` values starting at 1, exactly one part
is appended per row (`entryPartsSum es = rows.length`), and the resulting
table separates the primary-flagged entry into `primaryKey` while the others
are appended to the index list in construction order; concretely, rows
`[(idx_a, col1), (idx_a, col2)]` yield exactly one index whose parts are
`SeqNo 1 → col1`, `SeqNo 2 → col2`, and a primary-flagged row lands in the
table's primary key, not its index list. -/
theorem c2_index_assembly (t : Table) (rows : List IndexRow) (es : List IdxEntry)
    (h : addIndexesEntries t rows = .ok es) :
    entryNames es = firstSeen (rows.map fun r => r.name) ∧
    (∀ e ∈ es, contiguousFromOne e.idx.parts) ∧
    entryPartsSum es = rows.length ∧
    (∀ t', addIndexes t rows = .ok t' →
      t'.indexes = t.indexes ++ (es.filter fun e => !e.primary).map (fun e => e.idx) ∧
      t'.primaryKey = (match (es.filter fun e => e.primary).getLast? with
                       | some e => some e.idx
                       | none => t.primaryKey)) ∧
    addIndexes exTable [exRow1, exRow2] = .ok { exTable with indexes := [exIdxA] } ∧
    addIndexes exTable [exRowPk] = .ok { exTable with primaryKey := some exPkIdx } := by
  obtain ⟨hn, hnd, hc, hs⟩ :=
    addIndexesLoop_inv t rows [] es (by simp [entryNames]) (by simp) h
  refine ⟨?_, hc, ?_, ?_, by decide, by decide⟩
  · simpa [firstSeen, entryNames] using hn
  · simpa [entryPartsSum] using hs
  · intro t' h'
    rw [addIndexes, h] at h'
    simp only [Except.map] at h'
    cases h'
    exact ⟨rfl, rfl⟩

/-- C2 (witness): the invariants instantiated at the example rows
`[(idx_a, col1), (idx_a, col2)]` over the two-column example table. -/
theorem c2_index_assembly_witness :
    entryNames [{ idx := exIdxA, primary := false }] = firstSeen ["idx_a", "idx_a"] ∧
    entryPartsSum [{ idx := exIdxA, primary := false }] = 2 ∧
    addIndexes exTable [exRow1, exRow2] = .ok { exTable with indexes := [exIdxA] } ∧
    addIndexes exTable [exRowPk] = .ok { exTable with primaryKey := some exPkIdx } := by
  have h := c2_index_assembly exTable [exRow1, exRow2]
    [{ idx := exIdxA, primary := false }] (by decide)
  exact ⟨h.1, h.2.2.1, h.2.2.2.2.1, h.2.2.2.2.2⟩

/-- If some index row has an invalid expression, a valid column name, and the
column is absent from the table, the loop fails from any state. -/
theorem addIndexesLoop_err (t : Table) :
    ∀ (rows : List IndexRow) (st : List IdxEntry) (r : IndexRow), r ∈ rows →
      validString r.expr = false → validString r.column = true →
      tableColumn t (r.column.getD "") = none →
      ∃ err, addIndexesLoop t st rows = .error err := by
  intro rows
  induction rows with
  | nil => intro st r hr; cases hr
  | cons r0 rows ih =>
    intro st r hr hexpr hcol hmiss
    rcases List.mem_cons.mp hr with rfl | hr1
    · refine ⟨.columnNotFound (r.column.getD "") r.name, ?_⟩
      have hstep : addIndexesStep t st r = .error (.columnNotFound (r.column.getD "") r.name) := by
        rw [addIndexesStep]
        rw [if_neg (by simp [hexpr]), if_pos hcol, if_neg (by simp [hmiss])]
      simp [addIndexesLoop, hstep]
    · cases hstep : addIndexesStep t st r0 with
      | error e => exact ⟨e, by simp [addIndexesLoop, hstep]⟩
      | ok st1 =>
        obtain ⟨err, herr⟩ := ih st1 r hr1 hexpr hcol hmiss
        exact ⟨err, by simp [addIndexesLoop, hstep, herr]⟩

/-- If some check row names a column absent from the table, the check loop
fails from any state. -/
theorem addChecksLoop_err (t : Table) :
    ∀ (rows : List CheckRow) (st : List Check) (r : CheckRow), r ∈ rows →
      tableColumn t r.column = none →
      ∃ err, addChecksLoop t st rows = .error err := by
  intro rows
  induction rows with
  | nil => intro st r hr; cases hr
  | cons r0 rows ih =>
    intro st r hr hmiss
    rcases List.mem_cons.mp hr with rfl | hr1
    · refine ⟨.checkColumnNotFound r.column r.name, ?_⟩
      have hstep : addChecksStep t st r = .error (.checkColumnNotFound r.column r.name) := by
        rw [addChecksStep, if_pos (by simp [hmiss])]
      simp [addChecksLoop, hstep]
    · cases hstep : addChecksStep t st r0 with
      | error e => exact ⟨e, by simp [addChecksLoop, hstep]⟩
      | ok st1 =>
        obtain ⟨err, herr⟩ := ih st1 r hr1 hmiss
        exact ⟨err, by simp [addChecksLoop, hstep, herr]⟩

/-- Index assembly never changes the column list. -/
theorem addIndexes_columns (t : Table) (rows : List IndexRow) (t1 : Table)
    (h : addIndexes t rows = .ok t1) : t1.columns = t.columns := by
  rw [addIndexes] at h
  cases he : addIndexesEntries t rows with
  | error e => rw [he] at h; cases h
  | ok es =>
    rw [he] at h
    simp only [Except.map] at h
    cases h
    rfl

/-- C3: an index row (invalid expression, valid column name) or a check row
naming a column absent from the table's column list makes the respective
assembly fail with a hard error, and the whole table-inspection pipeline
returns no table at all. -/
theorem c3_missing_column_aborts (t : Table) (irows : List IndexRow) (crows : List CheckRow) :
    ((∃ r ∈ irows, validString r.expr = false ∧ validString r.column = true ∧
        tableColumn t (r.column.getD "") = none) →
      (∃ err, addIndexes t irows = .error err) ∧
      ∀ t', inspectTableModel t irows crows ≠ .ok t') ∧
    ((∃ r ∈ crows, tableColumn t r.column = none) →
      (∃ err, addChecks t crows = .error err) ∧
      ∀ t', inspectTableModel t irows crows ≠ .ok t') := by
  constructor
  · rintro ⟨r, hr, hexpr, hcol, hmiss⟩
    obtain ⟨err, herr⟩ := addIndexesLoop_err t irows [] r hr hexpr hcol hmiss
    have hidx : addIndexes t irows = .error err := by
      rw [addIndexes, addIndexesEntries, herr]; rfl
    refine ⟨⟨err, hidx⟩, fun t' hok => ?_⟩
    rw [inspectTableModel, hidx] at hok
    cases hok
  · rintro ⟨r, hr, hmiss⟩
    have hchk : ∀ t0 : Table, t0.columns = t.columns →
        ∃ err, addChecks t0 crows = .error err := by
      intro t0 hcols
      obtain ⟨err, herr⟩ := addChecksLoop_err t0 crows [] r hr
        (by rw [tableColumn, hcols]; exact hmiss)
      exact ⟨err, by rw [addChecks, herr]; rfl⟩
    obtain ⟨err0, herr0⟩ := hchk t rfl
    refine ⟨⟨err0, herr0⟩, fun t' hok => ?_⟩
    rw [inspectTableModel] at hok
    cases hidx : addIndexes t irows with
    | error e => rw [hidx] at hok; cases hok
    | ok t1 =>
      rw [hidx] at hok
      obtain ⟨err1, herr1⟩ := hchk t1 (addIndexes_columns t irows t1 hidx)
      simp only [bind, Except.bind, herr1] at hok
      cases hok

/-- C3 (witness): over the example table, the index row naming the absent
column `ghost` and the check row naming it abort the inspection. -/
theorem c3_missing_column_aborts_witness :
    inspectTableModel exTable [exRowBad] [exCheckBad] ≠ .ok exTable ∧
    inspectTableModel exTable [] [exCheckBad] ≠ .ok exTable :=
  ⟨((c3_missing_column_aborts exTable [exRowBad] [exCheckBad]).1
      ⟨exRowBad, by decide, by decide, by decide, by decide⟩).2 exTable,
   ((c3_missing_column_aborts exTable [] [exCheckBad]).2
      ⟨exCheckBad, by decide, by decide⟩).2 exTable⟩

/-- C4 (counterexample): with an empty name, `InspectSchema` resolves the
attached schema (here `GHOST`) and uses it without consulting the accessible
schema list at all — even against a catalog whose accessible list is empty
(so `GHOST` is certainly absent from it) the resolution succeeds instead of
returning the `NotExistError` the claim requires. -/
theorem c4_notexist_counterexample :
    resolveSchemas "" (.ok ["GHOST"]) (.ok []) = .ok [{ name := "GHOST" }] ∧
    "GHOST" ∉ ([] : List String) := by
  exact ⟨by decide, by simp⟩

/-- C4 (amended): the table identity query returns `NotExistError` on zero
rows, and `InspectSchema` with a non-empty name returns `NotExistError` when
the filtered accessible-schema query comes back empty — both distinguishable
from generic query/scan failures via the error kind; but with an empty name
the resolution uses whatever the attached-schema query returns and never
consults the accessible schema list, so no `NotExistError` arises on that
path. -/
theorem c4_notexist_amended :
    (∀ name, tableFromRows name (.ok []) =
      .error (.notExist ("oracle: table " ++ name ++ " was not found"))) ∧
    (∀ name attachedRes, name ≠ "" →
      resolveSchemas name attachedRes (.ok []) =
        .error (.notExist ("oracle: schema \x22" ++ name ++ "\x22 was not found"))) ∧
    (∀ rows n schemasRes, scanOne rows = some n →
      resolveSchemas "" (.ok rows) schemasRes = .ok [{ name := n }]) ∧
    (∀ m, isNotExist (.notExist m) = true) ∧
    (∀ m q, isNotExist (.queryErr m) = false ∧ isNotExist (.scanErr q) = false) := by
  refine ⟨fun name => rfl, ?_, ?_, fun m => rfl, fun m q => ⟨rfl, rfl⟩⟩
  · intro name ar h
    rw [resolveSchemas.eq_def, if_neg h]
  · intro rows n sr h
    rw [resolveSchemas.eq_def, if_pos rfl]
    simp only [h]

/-- C4 (witness): the amended behaviours at concrete query outcomes. -/
theorem c4_notexist_amended_witness :
    tableFromRows "users" (.ok []) =
      .error (.notExist "oracle: table users was not found") ∧
    resolveSchemas "S1" (.ok []) (.ok []) =
      .error (.notExist "oracle: schema \x22S1\x22 was not found") ∧
    resolveSchemas "" (.ok ["GHOST2"]) (.ok ["OTHER"]) = .ok [{ name := "GHOST2" }] ∧
    isNotExist (.notExist "m") = true ∧
    isNotExist (.queryErr "m") = false :=
  ⟨c4_notexist_amended.1 "users",
   c4_notexist_amended.2.1 "S1" (.ok []) (by decide),
   c4_notexist_amended.2.2.1 ["GHOST2"] "GHOST2" (.ok ["OTHER"]) rfl,
   c4_notexist_amended.2.2.2.1 "m",
   (c4_notexist_amended.2.2.2.2 "m" "m").1⟩

/-- C7 (counterexample): the cast-unwrap on a numeric column returns the
unquoted inner text, not the quoted text the claim states — on a Decimal
column of raw spelling `number`, the default `'5'::number` classifies as
Literal `5` rather than Literal `'5'`. -/
theorem c7_default_classifier_counterexample :
    defaultExpr exNumCol "\x275\x27::number" = .literal "5" ∧
    defaultExpr exNumCol "\x275\x27::number" ≠ .literal "\x275\x27" :=
  ⟨by decide, by decide⟩

/-- C7 (amended): the classifier returns a Literal for boolean/numeric/quoted
raw text; otherwise, when `'<inner>'::<raw-type>` matches the column's own
spelling (array element type for arrays), the string/time/binary/json/array/
network/spatial/UUID/XML family yields a Literal carrying the still-quoted
text, while boolean and decimal/integer/float columns yield a Literal
carrying the unquoted inner text (when it is a literal of their kind); every
other case falls back to a RawExpression preserving the text verbatim — in
particular `'2021-01-01'::date` on a Time column classifies as Literal
`'2021-01-01'` and `now()` as RawExpression `now()`. -/
theorem c7_default_classifier (c : Column) (x : String) :
    ((isLiteralBool x || isLiteralNumber x || isQuotedWith squote x) = true →
      defaultExpr c x = .literal x) ∧
    ((isLiteralBool x || isLiteralNumber x || isQuotedWith squote x) = false →
      ∀ v, canConvert c.ctype x = some v → defaultExpr c x = .literal v) ∧
    ((isLiteralBool x || isLiteralNumber x || isQuotedWith squote x) = false →
      canConvert c.ctype x = none → defaultExpr c x = .rawExpr x) ∧
    (∀ i, findSub x ("::" ++ castRawOf c.ctype) = some i →
      isQuotedWith squote (strTake x i) = true →
      alwaysCastFamily c.ctype.type = true →
      canConvert c.ctype x = some (strTake x i)) ∧
    (∀ i, findSub x ("::" ++ castRawOf c.ctype) = some i →
      isQuotedWith squote (strTake x i) = true →
      numericCastFamily c.ctype.type = true →
      isLiteralNumber (strSlice x 1 (i - 1)) = true →
      canConvert c.ctype x = some (strSlice x 1 (i - 1))) ∧
    (∀ i tb, findSub x ("::" ++ castRawOf c.ctype) = some i →
      isQuotedWith squote (strTake x i) = true →
      c.ctype.type = .boolT tb →
      isLiteralBool (strSlice x 1 (i - 1)) = true →
      canConvert c.ctype x = some (strSlice x 1 (i - 1))) ∧
    defaultExpr exTimeCol "\x272021-01-01\x27::date" = .literal "\x272021-01-01\x27" ∧
    defaultExpr exTimeCol "now()" = .rawExpr "now()" := by
  refine ⟨?_, ?_, ?_, ?_, ?_, ?_, by decide, by decide⟩
  · intro h
    rw [defaultExpr, if_pos h]
  · intro h v hv
    rw [defaultExpr, if_neg (by simp [h]), hv]
  · intro h hv
    rw [defaultExpr, if_neg (by simp [h]), hv]
  · intro i hf hq hfam
    simp only [canConvert, hf]
    rw [if_pos hq]
    cases hty : c.ctype.type <;> rw [hty] at hfam <;>
      simp_all [alwaysCastFamily]
  · intro i hf hq hfam hnum
    simp only [canConvert, hf]
    rw [if_pos hq]
    cases hty : c.ctype.type <;> rw [hty] at hfam <;>
      simp_all [numericCastFamily, hnum]
  · intro i tb hf hq hty hbool
    simp only [canConvert, hf]
    rw [if_pos hq, hty]
    simp [hbool]

/-- C7 (witness): the amended classification at concrete inputs — the
numeric cast-unwrap `'5'::number`, and the Time-column examples. -/
theorem c7_default_classifier_witness :
    canConvert exNumCol.ctype "\x275\x27::number" = some "5" ∧
    defaultExpr exNumCol "\x275\x27::number" = .literal "5" ∧
    defaultExpr exTimeCol "\x272021-01-01\x27::date" = .literal "\x272021-01-01\x27" ∧
    defaultExpr exTimeCol "now()" = .rawExpr "now()" := by
  have h := c7_default_classifier exNumCol "\x275\x27::number"
  have hcc : canConvert exNumCol.ctype "\x275\x27::number" = some "5" :=
    h.2.2.2.2.1 3 (by decide) (by decide) (by decide) (by decide)
  exact ⟨hcc, h.2.1 (by decide) "5" hcc, h.2.2.2.2.2.2.1, h.2.2.2.2.2.2.2⟩

/-! ## Lemmas on the version gate (towards C10) -/

/-- A digit character has code point between 48 and 57. -/
theorem char_digit_bounds {c : Char} (h : c.isDigit = true) :
    48 ≤ c.val.toNat ∧ c.val.toNat ≤ 57 := by
  simp [Char.isDigit] at h
  exact ⟨h.1, h.2⟩

/-- A character other than `0` has code point other than 48. -/
theorem char_ne_zero_val {c : Char} (h : c ≠ '0') : c.val.toNat ≠ 48 := by
  intro hv
  exact h (Char.ext (UInt32.ext (hv.trans (by decide))))

/-- A non-zero digit is not below `1`. -/
theorem char_not_lt_one {c : Char} (hd : c.isDigit = true) (hn : c ≠ '0') : ¬ (c < '1') := by
  intro hlt
  have h1 : c.val.toNat < ('1' : Char).val.toNat := hlt
  have h2 := char_digit_bounds hd
  have h3 := char_ne_zero_val hn
  have h4 : ('1' : Char).val.toNat = 49 := by decide
  omega

/-- A digit is not below `0`. -/
theorem char_not_lt_zero {c : Char} (hd : c.isDigit = true) : ¬ (c < '0') := by
  intro hlt
  have h1 : c.val.toNat < ('0' : Char).val.toNat := hlt
  have h2 := char_digit_bounds hd
  have h4 : ('0' : Char).val.toNat = 48 := by decide
  omega

/-- A two-digit identifier with non-zero lead is never below `10`. -/
theorem clLt_2digit_false (c0 c1 : Char) (hd0 : c0.isDigit = true) (hn0 : c0 ≠ '0')
    (hd1 : c1.isDigit = true) : clLt [c0, c1] ['1', '0'] = false := by
  rw [clLt, if_neg (char_not_lt_one hd0 hn0)]
  by_cases h : '1' < c0
  · rw [if_pos h]
  · rw [if_neg h, clLt, if_neg (char_not_lt_zero hd1)]
    by_cases h2 : '0' < c1
    · rw [if_pos h2]
    · rw [if_neg h2]
      rfl

/-- The major comparison against `10` is never `-1` for a valid two-digit
major. -/
theorem compareIntG_major (c0 c1 : Char) (hd0 : c0.isDigit = true) (hn0 : c0 ≠ '0')
    (hd1 : c1.isDigit = true) :
    compareIntG [c0, c1] ['1', '0'] = 0 ∨ compareIntG [c0, c1] ['1', '0'] = 1 := by
  rw [compareIntG]
  by_cases heq : [c0, c1] = ['1', '0']
  · left
    rw [if_pos heq]
  · right
    rw [if_neg heq, if_neg (by simp), if_neg (by simp),
      if_neg (by simp [clLt_2digit_false c0 c1 hd0 hn0 hd1])]

/-- A two-digit minor always exceeds the one-digit `0`. -/
theorem compareIntG_minor (c2 c3 : Char) : compareIntG [c2, c3] ['0'] = 1 := by
  rw [compareIntG, if_neg (by simp), if_neg (by simp), if_pos (by simp)]

/-- On a valid all-digit reformatted version, `parse` yields exactly the
three two-digit components. -/
theorem semParse_fmt_valid (c0 c1 c2 c3 c4 c5 : Char)
    (hd0 : c0.isDigit = true) (hd1 : c1.isDigit = true) (hd2 : c2.isDigit = true)
    (hd3 : c3.isDigit = true) (hd4 : c4.isDigit = true) (hd5 : c5.isDigit = true)
    (hn0 : c0 ≠ '0') (hn2 : c2 ≠ '0') (hn4 : c4 ≠ '0') :
    semParse ['v', c0, c1, '.', c2, c3, '.', c4, c5] =
      some ⟨[c0, c1], [c2, c3], [c4, c5], []⟩ := by
  have hdot : ('.' : Char).isDigit = false := by decide
  simp [semParse, semParseTail, parseIntSem, takeDigits, hd0, hd1, hd2, hd3, hd4, hd5,
    hdot, hn0, hn2, hn4]

/-- Conversely, if `parse` accepts the reformatted version at all, then all
six characters are digits and each group's lead is non-zero. -/
theorem semParse_fmt_digits (c0 c1 c2 c3 c4 c5 : Char) (p : SemParsed)
    (h : semParse ['v', c0, c1, '.', c2, c3, '.', c4, c5] = some p) :
    validSemVer6 c0 c1 c2 c3 c4 c5 = true := by
  have hdot : ('.' : Char).isDigit = false := by decide
  by_cases hd0 : c0.isDigit = true
  case neg => simp [semParse, parseIntSem, hd0] at h
  by_cases hd1 : c1.isDigit = true
  case neg =>
    by_cases hc1 : c1 = '.'
    · subst hc1
      simp [semParse, parseIntSem, takeDigits, hd0, hdot] at h
    · simp [semParse, parseIntSem, takeDigits, hd0, hd1, hc1] at h
  by_cases hn0 : c0 = '0'
  case pos =>
    subst hn0
    simp [semParse, parseIntSem, takeDigits, hd0, hd1, hdot] at h
  by_cases hd2 : c2.isDigit = true
  case neg => simp [semParse, parseIntSem, takeDigits, hd0, hd1, hd2, hdot, hn0] at h
  by_cases hd3 : c3.isDigit = true
  case neg =>
    by_cases hc3 : c3 = '.'
    · subst hc3
      simp [semParse, parseIntSem, takeDigits, hd0, hd1, hd2, hdot, hn0] at h
    · simp [semParse, parseIntSem, takeDigits, hd0, hd1, hd2, hd3, hc3, hdot, hn0] at h
  by_cases hn2 : c2 = '0'
  case pos =>
    subst hn2
    simp [semParse, parseIntSem, takeDigits, hd0, hd1, hd2, hd3, hdot, hn0] at h
  by_cases hd4 : c4.isDigit = true
  case neg => simp [semParse, parseIntSem, takeDigits, hd0, hd1, hd2, hd3, hd4, hdot, hn0, hn2] at h
  by_cases hd5 : c5.isDigit = true
  case neg =>
    have hpre : parsePre ['-'] = none := by decide
    have hbld : parseBuildSem ['+'] = none := by decide
    by_cases hm : c5 = '-'
    · simp [semParse, semParseTail, parseIntSem, takeDigits, hd0, hd1, hd2, hd3, hd4, hd5,
        hdot, hn0, hn2, hm, hpre] at h
    · by_cases hp : c5 = '+'
      · simp [semParse, semParseTail, parseIntSem, takeDigits, hd0, hd1, hd2, hd3, hd4, hd5,
          hdot, hn0, hn2, hm, hp, hbld] at h
      · simp [semParse, semParseTail, parseIntSem, takeDigits, hd0, hd1, hd2, hd3, hd4, hd5,
          hdot, hn0, hn2, hm, hp] at h
  by_cases hn4 : c4 = '0'
  case pos =>
    subst hn4
    simp [semParse, parseIntSem, takeDigits, hd0, hd1, hd2, hd3, hd4, hd5, hdot, hn0, hn2] at h
  simp [validSemVer6, bne_iff_ne, hd0, hd1, hd2, hd3, hd4, hd5, hn0, hn2, hn4]

/-- On a valid reformatted version the gate comparison returns `1`. -/
theorem semverCmp_fmt_valid (c0 c1 c2 c3 c4 c5 : Char)
    (hd0 : c0.isDigit = true) (hd1 : c1.isDigit = true) (hd2 : c2.isDigit = true)
    (hd3 : c3.isDigit = true) (hd4 : c4.isDigit = true) (hd5 : c5.isDigit = true)
    (hn0 : c0 ≠ '0') (hn2 : c2 ≠ '0') (hn4 : c4 ≠ '0') :
    semverCmp ['v', c0, c1, '.', c2, c3, '.', c4, c5] v1000 = 1 := by
  have hp := semParse_fmt_valid c0 c1 c2 c3 c4 c5 hd0 hd1 hd2 hd3 hd4 hd5 hn0 hn2 hn4
  have hw : semParse v1000 = some ⟨['1', '0'], ['0'], ['0'], []⟩ := by decide
  simp only [semverCmp, hp, hw]
  rcases compareIntG_major c0 c1 hd0 hn0 hd1 with h | h
  · rw [h]
    simp [compareIntG_minor c2 c3]
  · rw [h]
    simp

/-- On an invalid reformatted version the gate comparison returns `-1`
(an invalid semver sorts below the valid `v10.0.0`). -/
theorem semverCmp_fmt_invalid (c0 c1 c2 c3 c4 c5 : Char)
    (hv : validSemVer6 c0 c1 c2 c3 c4 c5 = false) :
    semverCmp ['v', c0, c1, '.', c2, c3, '.', c4, c5] v1000 = -1 := by
  have hnone : semParse ['v', c0, c1, '.', c2, c3, '.', c4, c5] = none := by
    cases hp : semParse ['v', c0, c1, '.', c2, c3, '.', c4, c5] with
    | none => rfl
    | some p => exact absurd (semParse_fmt_digits c0 c1 c2 c3 c4 c5 p hp) (by simp [hv])
  have hw : semParse v1000 = some ⟨['1', '0'], ['0'], ['0'], []⟩ := by decide
  simp only [semverCmp, hnone, hw]

/-- C10 (counterexample): the catalog version `100000` — numerically
`10.00.00`, i.e. version 10.0.0 and so not strictly below 10.0.0 — makes
`Open` succeed: its reformatting has leading zeros in the minor and patch
groups, which is invalid semver, and `semver.Compare` sorts any invalid
version below the valid `v10.0.0`. -/
theorem c10_open_version_counterexample :
    openConn ["collate", "ctype", "100000"] =
      .ok { collate := "collate", ctype := "ctype", version := "10.00.00" } ∧
    versionNums "100000" = some (10, 0, 0) := by
  exact ⟨by decide, by decide⟩

/-- C10 (amended): `Open` errors unless the parameters query yields exactly 3
values and the version string has exactly 6 characters; the reformatted
`XX.YY.ZZ` version is then rejected as unsupported precisely when it is valid
semver — all six characters digits with the lead of each group non-zero (so
every rejected version is at least 10.10.10 ≥ 10.0.0) — while every other
6-character version is accepted, including ones that denote numbers at or
above 10.0.0 but have a leading zero in some group (e.g. `100000`). -/
theorem c10_open_version_amended :
    (∀ ps : List String, ps.length ≠ 3 → openConn ps = .error (.rowCount ps.length)) ∧
    (∀ col ct v : String, v.toList.length ≠ 6 →
      openConn [col, ct, v] = .error (.malformedVersion v)) ∧
    (∀ col ct : String, ∀ c0 c1 c2 c3 c4 c5 : Char,
      openConn [col, ct, String.mk [c0, c1, c2, c3, c4, c5]] =
        if validSemVer6 c0 c1 c2 c3 c4 c5 then
          .error (.unsupportedVersion (String.mk [c0, c1, '.', c2, c3, '.', c4, c5]))
        else
          .ok { collate := col, ctype := ct,
                version := String.mk [c0, c1, '.', c2, c3, '.', c4, c5] }) := by
  refine ⟨?_, ?_, ?_⟩
  · intro ps h
    match ps with
    | [] => rfl
    | [a] => rfl
    | [a, b] => rfl
    | [a, b, c] => exact absurd rfl h
    | a :: b :: c :: d :: tl => rfl
  · intro col ct v h
    simp only [openConn]
    rw [if_pos h]
  · intro col ct c0 c1 c2 c3 c4 c5
    have hfmt : reformatChars (String.mk [c0, c1, c2, c3, c4, c5]).toList =
        [c0, c1, '.', c2, c3, '.', c4, c5] := rfl
    simp only [openConn, hfmt]
    rw [if_neg (by simp)]
    cases hv : validSemVer6 c0 c1 c2 c3 c4 c5 with
    | true =>
      have hv' := hv
      simp only [validSemVer6, Bool.and_eq_true, bne_iff_ne] at hv'
      obtain ⟨⟨⟨⟨⟨⟨⟨⟨hd0, hd1⟩, hd2⟩, hd3⟩, hd4⟩, hd5⟩, hn0⟩, hn2⟩, hn4⟩ := hv'
      have hcmp := semverCmp_fmt_valid c0 c1 c2 c3 c4 c5 hd0 hd1 hd2 hd3 hd4 hd5 hn0 hn2 hn4
      rw [if_pos (by rw [show ('v' :: [c0, c1, '.', c2, c3, '.', c4, c5]) =
            ['v', c0, c1, '.', c2, c3, '.', c4, c5] from rfl, hcmp]; decide)]
      rw [if_pos rfl]
    | false =>
      have hcmp := semverCmp_fmt_invalid c0 c1 c2 c3 c4 c5 hv
      rw [if_neg (by rw [show ('v' :: [c0, c1, '.', c2, c3, '.', c4, c5]) =
            ['v', c0, c1, '.', c2, c3, '.', c4, c5] from rfl, hcmp]; decide)]
      rw [if_neg (by simp)]

/-- C10 (witness): the amended gate at concrete parameter lists — a wrong row
count, a malformed version, a rejected valid-semver version `101010`, and an
accepted below-10 version `090000`. -/
theorem c10_open_version_amended_witness :
    openConn ["a"] = .error (.rowCount 1) ∧
    openConn ["a", "b", "12345"] = .error (.malformedVersion "12345") ∧
    openConn ["a", "b", "101010"] = .error (.unsupportedVersion "10.10.10") ∧
    openConn ["a", "b", "090000"] = .ok { collate := "a", ctype := "b", version := "09.00.00" } := by
  have h := c10_open_version_amended
  refine ⟨h.1 ["a"] (by decide), h.2.1 "a" "b" "12345" (by decide), ?_, ?_⟩
  · have h3 := h.2.2 "a" "b" '1' '0' '1' '0' '1' '0'
    rw [show validSemVer6 '1' '0' '1' '0' '1' '0' = true from by decide] at h3
    simpa using h3
  · have h3 := h.2.2 "a" "b" '0' '9' '0' '0' '0' '0'
    rw [show validSemVer6 '0' '9' '0' '0' '0' '0' = false from by decide] at h3
    simpa using h3
